import Mathlib

set_option autoImplicit false

/-!
Shallow embedding of `carbon-multi-resize.py`: the rule-based storage-policy
resolver (`loadStorageSchemas`, `loadAggregationSchemas`, `get_archive_config`),
the drift check (`diff_file_conf`), the per-file reconcile step of the
module-level walk, and the `ListSchema` matcher's mtime-driven cache.

External collaborators (the `whisper` library, `re`, Python builtins) are
modelled as parameters or small faithful functions:
  - `whisper.parseRetentionDef` : a `parse : String → Option Archive`
    parameter (`none` = the uncaught exception, which aborts the load);
  - `whisper.validateArchiveList` : a `validate : List (Nat × Nat) → Bool`
    parameter (`false` = `whisper.InvalidConfiguration`, which the loader
    catches and logs);
  - `float(...)` : a `parseFloat : String → Option ℚ` parameter
    (`none` = `ValueError`, caught by the loader's bare `except`); floats are
    modelled as rationals;
  - `whisper.aggregationMethods` : an `aggMethods : List String` parameter;
  - `re.compile(p).search(m)` : an `rs : String → String → Bool` parameter
    giving the truth value of an unanchored regex search (a malformed pattern
    raises at load time in the source; the model treats patterns as
    compilable, which no claim below depends on);
  - Python `str.split` with a one-character separator : `pySplit` below;
  - `whisper.info` : the file's observed header, passed in as a value;
  - the external `whisper-resize` invocation : `applyResize`, modelled from
    the spec.
Fatal exceptions (`KeyError`, an uncaught parse error, `NameError`) surface
as `Except.error`; caught, logged-and-skipped failures do not.
-/

/-- Python truthiness of an `options.get(...)` result: `None` and the empty
string are falsy, any other string truthy. -/
def truthy : Option String → Bool
  | none => false
  | some s => s ≠ ""

/-- Python truthiness of the value returned by `diff_file_conf`, which is
either `True` (`some true`) or the implicit `None` (`none`). -/
def truthyOpt : Option Bool → Bool
  | some b => b
  | none => false

/-- Python `str.split(sep)` for a single-character separator, on the
character list: `''.split(',') = ['']`, `'a,,b'.split(',') = ['a','','b']`. -/
def pySplitAux : List Char → Char → List (List Char)
  | [], _ => [[]]
  | c :: rest, sep =>
    match pySplitAux rest sep with
    | [] => [[]]
    | h :: t => if c = sep then [] :: h :: t else (c :: h) :: t

/-- Python `str.split(sep)` for a single-character separator. -/
def pySplit (s : String) (sep : Char) : List String :=
  (pySplitAux s.data sep).map (fun cs => String.mk cs)

/-- `class Archive`: one retention tier (`secondsPerPoint`, `points`). -/
structure Archive where
  secondsPerPoint : Nat
  points : Nat
  deriving DecidableEq, Repr

/-- `Archive.getTuple`. -/
def Archive.getTuple (a : Archive) : Nat × Nat :=
  (a.secondsPerPoint, a.points)

/-- The matcher part of a schema rule built by the loaders:
`DefaultSchema.test` always holds, `PatternSchema.test` is a regex search.
(`ListSchema` is never constructed by either loader in the source; it is
modelled separately below for its own claim.) -/
inductive SchemaKind where
  | defaultKind
  | patternKind (pattern : String)
  deriving DecidableEq, Repr

/-- A rule: section name, matcher, and payload (`archives` holds a list of
`Archive` for retention rules; the aggregation loader reuses the same classes
and stores the `(xFilesFactor, aggregationMethod)` pair in the same field). -/
structure Schema (α : Type) where
  name : String
  kind : SchemaKind
  archives : α
  deriving DecidableEq, Repr

/-- `Schema.matches` = `bool(self.test(metric))`, with `rs p m` the truth
value of `re.compile(p).search(m)`. -/
def Schema.matches {α : Type} (s : Schema α) (rs : String → String → Bool)
    (metric : String) : Bool :=
  match s.kind with
  | .defaultKind => true
  | .patternKind p => rs p metric

/-- Retention rule: payload is the ordered archive list. -/
abbrev RetSchema := Schema (List Archive)

/-- Aggregation rule: payload is `(xFilesFactor, aggregationMethod)`. -/
abbrev AggSchema := Schema (Option ℚ × Option String)

/-- `defaultArchive = Archive(60, 60 * 24 * 7)`. -/
def defaultArchive : Archive :=
  ⟨60, 60 * 24 * 7⟩

/-- `defaultSchema = DefaultSchema('default', [defaultArchive])`. -/
def defaultSchema : RetSchema :=
  ⟨"default", .defaultKind, [defaultArchive]⟩

/-- `defaultAggregation = DefaultSchema('default', (None, None))`. -/
def defaultAggregation : AggSchema :=
  ⟨"default", .defaultKind, (none, none)⟩

/-- One section of `storage-schemas.conf` as `dict(config.items(section))`
exposes it: `options.get('match-all')`, `options.get('pattern')`, and
`options['retentions']` (`none` = key absent, a fatal `KeyError`). -/
structure ConfSection where
  name : String
  matchAll : Option String
  pattern : Option String
  retentions : Option String
  deriving DecidableEq, Repr

/-- One section of `storage-aggregation.conf`. -/
structure AggSection where
  name : String
  matchAll : Option String
  pattern : Option String
  xfilesfactor : Option String
  aggregationmethod : Option String
  deriving DecidableEq, Repr

/-- `[Archive.fromString(s) for s in retentions]`: every element must parse,
an exception (`none`) aborts the whole load. -/
def parseArchives (parse : String → Option Archive) : List String → Option (List Archive)
  | [] => some []
  | s :: rest =>
    match parse s, parseArchives parse rest with
    | some a, some tail => some (a :: tail)
    | _, _ => none

/-- The `if matchAll: ... elif pattern: ...` dispatch of `loadStorageSchemas`
(no `else` branch exists in the source: `none` means `mySchema` was not
assigned in this iteration). -/
def mkRetSchema (sec : ConfSection) (archives : List Archive) : Option RetSchema :=
  if truthy sec.matchAll then some ⟨sec.name, .defaultKind, archives⟩
  else if truthy sec.pattern then
    some ⟨sec.name, .patternKind (sec.pattern.getD ""), archives⟩
  else none

/-- The loop of `loadStorageSchemas`: Python's `mySchema` is a loop-carried
variable, so a section with neither selector silently reuses the previous
iteration's schema (`stale`), and raises `NameError` if there is none.  The
accumulator keeps appended schemas in order. -/
def loadStorageSchemasAux (parse : String → Option Archive)
    (validate : List (Nat × Nat) → Bool) :
    List ConfSection → List RetSchema → Option RetSchema → Except String (List RetSchema)
  | [], acc, _ => .ok (acc ++ [defaultSchema])
  | sec :: rest, acc, stale =>
    match sec.retentions with
    | none => .error "KeyError: retentions"
    | some retStr =>
      match parseArchives parse (pySplit retStr ',') with
      | none => .error "whisper.parseRetentionDef raised"
      | some archives =>
        let mySchema : Option RetSchema := (mkRetSchema sec archives).or stale
        if validate (archives.map Archive.getTuple) then
          match mySchema with
          | none => .error "NameError: name mySchema is not defined"
          | some s => loadStorageSchemasAux parse validate rest (acc ++ [s]) mySchema
        else
          loadStorageSchemasAux parse validate rest acc mySchema

/-- `loadStorageSchemas()`: build the retention rule list from the section
list, appending `defaultSchema` at the end. -/
def loadStorageSchemas (parse : String → Option Archive)
    (validate : List (Nat × Nat) → Bool) (sections : List ConfSection) :
    Except String (List RetSchema) :=
  loadStorageSchemasAux parse validate sections [] none

/-- The `try` block of `loadAggregationSchemas`: parse the optional
`xfilesfactor` (must be a float in `[0,1]`) and the optional
`aggregationmethod` (must be in `whisper.aggregationMethods`); any failure is
caught and the section skipped (`none`). -/
def parseAggOptions (parseFloat : String → Option ℚ) (aggMethods : List String)
    (xffStr amStr : Option String) : Option (Option ℚ × Option String) :=
  match xffStr with
  | none =>
    match amStr with
    | none => some (none, none)
    | some m => if m ∈ aggMethods then some (none, some m) else none
  | some s =>
    match parseFloat s with
    | none => none
    | some x =>
      if 0 ≤ x ∧ x ≤ 1 then
        match amStr with
        | none => some (some x, none)
        | some m => if m ∈ aggMethods then some (some x, some m) else none
      else none

/-- The `if matchAll: ... elif pattern: ...` dispatch of
`loadAggregationSchemas` (again with no `else` branch in the source). -/
def mkAggSchema (sec : AggSection) (payload : Option ℚ × Option String) :
    Option AggSchema :=
  if truthy sec.matchAll then some ⟨sec.name, .defaultKind, payload⟩
  else if truthy sec.pattern then
    some ⟨sec.name, .patternKind (sec.pattern.getD ""), payload⟩
  else none

/-- Loop of `loadAggregationSchemas`, with the same loop-carried `mySchema`
variable as the retention loader (a selector-less section appends the stale
schema, or raises `NameError` when there is none). -/
def loadAggregationSchemasAux (parseFloat : String → Option ℚ)
    (aggMethods : List String) :
    List AggSection → List AggSchema → Option AggSchema → Except String (List AggSchema)
  | [], acc, _ => .ok (acc ++ [defaultAggregation])
  | sec :: rest, acc, stale =>
    match parseAggOptions parseFloat aggMethods sec.xfilesfactor sec.aggregationmethod with
    | none => loadAggregationSchemasAux parseFloat aggMethods rest acc stale
    | some payload =>
      let mySchema : Option AggSchema := (mkAggSchema sec payload).or stale
      match mySchema with
      | none => .error "NameError: name mySchema is not defined"
      | some s => loadAggregationSchemasAux parseFloat aggMethods rest (acc ++ [s]) mySchema

/-- `loadAggregationSchemas()`: build the aggregation rule list, appending
`defaultAggregation` at the end (an absent config file yields no sections). -/
def loadAggregationSchemas (parseFloat : String → Option ℚ)
    (aggMethods : List String) (sections : List AggSection) :
    Except String (List AggSchema) :=
  loadAggregationSchemasAux parseFloat aggMethods sections [] none

/-- `get_archive_config(metric)`: scan `schemas` for the first matching rule
and take its archive tuples; independently scan `agg_schemas` for the first
matching rule and take its `(xFilesFactor, aggregationMethod)` pair; raise if
`archiveConfig` is falsy (`None` or the empty list). -/
def get_archive_config (rs : String → String → Bool) (schemas : List RetSchema)
    (agg_schemas : List AggSchema) (metric : String) :
    Except String (List (Nat × Nat) × Option ℚ × Option String) :=
  let archiveConfig : Option (List (Nat × Nat)) :=
    (schemas.find? (fun s => s.matches rs metric)).map
      (fun s => s.archives.map Archive.getTuple)
  let agg : Option ℚ × Option String :=
    match agg_schemas.find? (fun s => s.matches rs metric) with
    | some s => s.archives
    | none => (none, none)
  match archiveConfig with
  | none => .error ("No storage schema matched the metric " ++ metric)
  | some ac =>
    if ac = [] then .error ("No storage schema matched the metric " ++ metric)
    else .ok (ac, agg.1, agg.2)

/-- The observed policy `whisper.info(filepath)` returns: `xFilesFactor`,
`aggregationMethod`, and the archive headers as `(secondsPerPoint, points)`
pairs.  Both optional fields are modelled as `Option` so that the source's
comparisons against a prescribed `None` are expressible. -/
structure WhisperInfo where
  xFilesFactor : Option ℚ
  aggregationMethod : Option String
  archives : List (Nat × Nat)
  deriving DecidableEq, Repr

/-- The comparison body of `diff_file_conf`: `True` if the aggregation
fields differ, `True` if some pair produced by `zip(info['archives'],
archiveConfig)` differs in interval or point count, otherwise the implicit
`None`. -/
def policyDrift (info : WhisperInfo) (archiveConfig : List (Nat × Nat))
    (xFilesFactor : Option ℚ) (aggregationMethod : Option String) : Option Bool :=
  if info.xFilesFactor ≠ xFilesFactor ∨ info.aggregationMethod ≠ aggregationMethod then
    some true
  else if (info.archives.zip archiveConfig).any
      (fun p => decide (p.1.1 ≠ p.2.1) || decide (p.1.2 ≠ p.2.2)) then
    some true
  else
    none

/-- `diff_file_conf(metric, filepath)` with the file's observed header passed
in for `whisper.info`. -/
def diff_file_conf (rs : String → String → Bool) (schemas : List RetSchema)
    (agg_schemas : List AggSchema) (metric : String) (info : WhisperInfo) :
    Except String (Option Bool) := do
  let (archiveConfig, xFilesFactor, aggregationMethod) ←
    get_archive_config rs schemas agg_schemas metric
  pure (policyDrift info archiveConfig xFilesFactor aggregationMethod)

/-- The `command_args` list built in the walk body on detected drift:
`[WHISPER_RESIZE, filepath]`, one `"<secondsPerPoint>:<points>"` per
prescribed archive in order, `'--nobackup'`, then the aggregation-method flag
when `aggregationMethod` is truthy and the xFilesFactor flag when
`xFilesFactor is not None`. -/
def buildResizeCommand (whisperResize filepath : String)
    (archiveConfig : List (Nat × Nat)) (xFilesFactor : Option ℚ)
    (aggregationMethod : Option String) : List String :=
  [whisperResize, filepath]
    ++ archiveConfig.map (fun a => toString a.1 ++ ":" ++ toString a.2)
    ++ ["--nobackup"]
    ++ (match aggregationMethod with
        | some m => if m ≠ "" then ["--aggregationMethod=" ++ m] else []
        | none => [])
    ++ (match xFilesFactor with
        | some x => ["--xFilesFactor=" ++ toString x]
        | none => [])

/-- Modelled from the spec: the external rewrite tool (`whisper-resize`,
§6 "External rewrite invocation") rewrites the file to the given archive
list; the aggregation method changes only when the `--aggregationMethod`
flag is passed (the flag is passed under the same truthiness condition as in
`buildResizeCommand`) and the consistency threshold only when the
`--xFilesFactor` flag is passed; otherwise the file's stored values are
kept. -/
def applyResize (info : WhisperInfo) (archiveConfig : List (Nat × Nat))
    (xFilesFactor : Option ℚ) (aggregationMethod : Option String) : WhisperInfo where
  xFilesFactor :=
    match xFilesFactor with
    | some x => some x
    | none => info.xFilesFactor
  aggregationMethod :=
    match aggregationMethod with
    | some m => if m ≠ "" then some m else info.aggregationMethod
    | none => info.aggregationMethod
  archives := archiveConfig

/-- The body of the module-level walk for one `.wsp` file: run
`diff_file_conf`; if its result is truthy, call `get_archive_config` again,
build `command_args` and run the rewrite.  Returns the issued command (or
`none` when no drift was detected) and the file's observed policy after the
step. -/
def reconcileFile (rs : String → String → Bool) (schemas : List RetSchema)
    (agg_schemas : List AggSchema) (whisperResize filepath metric : String)
    (info : WhisperInfo) : Except String (Option (List String) × WhisperInfo) := do
  let d ← diff_file_conf rs schemas agg_schemas metric info
  if truthyOpt d then do
    let (archiveConfig, xFilesFactor, aggregationMethod) ←
      get_archive_config rs schemas agg_schemas metric
    pure (some (buildResizeCommand whisperResize filepath archiveConfig
                  xFilesFactor aggregationMethod),
          applyResize info archiveConfig xFilesFactor aggregationMethod)
  else
    pure (none, info)

/-- One target file of the walk: its path, the metric name derived from the
path, and its observed policy. -/
structure WspFile where
  filepath : String
  metric : String
  info : WhisperInfo
  deriving DecidableEq, Repr

/-- One reconciliation pass over a tree of target files: the number of
rewrite invocations issued and the files' observed policies afterwards. -/
def reconcilePass (rs : String → String → Bool) (schemas : List RetSchema)
    (agg_schemas : List AggSchema) (whisperResize : String) :
    List WspFile → Except String (Nat × List WspFile)
  | [] => .ok (0, [])
  | f :: rest => do
    let (cmd, info') ←
      reconcileFile rs schemas agg_schemas whisperResize f.filepath f.metric f.info
    let (n, rest') ← reconcilePass rs schemas agg_schemas whisperResize rest
    pure ((if cmd.isSome then 1 else 0) + n, ⟨f.filepath, f.metric, info'⟩ :: rest')

/-- `ListSchema`'s mutable state: the cached modification time and member
set (members as a list of metric names, standing for the pickled set). -/
structure ListState where
  mtime : Nat
  members : List String
  deriving DecidableEq, Repr

/-- The backing list file as the filesystem presents it at one access:
`none` when `exists(path)` is false, otherwise its modification time and
contents. -/
abbrev ListFile := Option (Nat × List String)

namespace ListSchema

/-- `ListSchema.__init__`: load the backing file if it exists, otherwise
start with `mtime = 0` and an empty member set. -/
def init (fs : ListFile) : ListState :=
  match fs with
  | some (t, ms) => ⟨t, ms⟩
  | none => ⟨0, []⟩

/-- `ListSchema.test(metric)`: if the backing file exists and its
modification time strictly exceeds the cached one, reload; then test
membership.  Returns (membership result, updated state, whether the file
was re-read). -/
def test (st : ListState) (fs : ListFile) (metric : String) :
    Bool × ListState × Bool :=
  match fs with
  | some (t, ms) =>
    if st.mtime < t then (metric ∈ ms, ⟨t, ms⟩, true)
    else (metric ∈ st.members, st, false)
  | none => (metric ∈ st.members, st, false)

end ListSchema

/-- The archive list a section contributes: `options['retentions']` split on
commas and parsed (`none` = one of the two fatal failures). -/
def sectionArchives (parse : String → Option Archive) (sec : ConfSection) :
    Option (List Archive) :=
  match sec.retentions with
  | none => none
  | some r => parseArchives parse (pySplit r ',')

/-- The retention rule list the spec prescribes for configs whose sections
all carry a selector: every section that parses and passes validation
contributes its own schema, in order; failed sections contribute nothing;
`defaultSchema` closes the list. -/
def expectedRetSchemas (parse : String → Option Archive)
    (validate : List (Nat × Nat) → Bool) (sections : List ConfSection) :
    List RetSchema :=
  (sections.filterMap (fun sec =>
    match sectionArchives parse sec with
    | none => none
    | some archives =>
      if validate (archives.map Archive.getTuple) then mkRetSchema sec archives
      else none))
  ++ [defaultSchema]

/-- The aggregation rule list the spec prescribes for configs whose sections
all carry a selector: sections whose threshold/method fail validation are
skipped, the rest contribute their own schema in order, and
`defaultAggregation` closes the list. -/
def expectedAggSchemas (parseFloat : String → Option ℚ) (aggMethods : List String)
    (sections : List AggSection) : List AggSchema :=
  (sections.filterMap (fun sec =>
    match parseAggOptions parseFloat aggMethods sec.xfilesfactor sec.aggregationmethod with
    | none => none
    | some payload => mkAggSchema sec payload))
  ++ [defaultAggregation]

/-- Concrete retention-string parser for the closed examples below (the shape
`whisper.parseRetentionDef` gives these inputs). -/
def demoParse : String → Option Archive
  | "10:8640" => some ⟨10, 8640⟩
  | "60:10080" => some ⟨60, 10080⟩
  | _ => none

/-- Concrete float parser for the closed examples below. -/
def demoFloat : String → Option ℚ
  | "0.5" => some (1 / 2)
  | _ => none

/-- `whisper.aggregationMethods` as shipped by whisper. -/
def demoMethods : List String :=
  ["average", "sum", "last", "max", "min"]

/-- A section with a `pattern` selector. -/
def secPattern : ConfSection :=
  ⟨"s1", none, some "^stats", some "10:8640"⟩

/-- A malformed section: neither `match-all` nor `pattern`. -/
def secNoSelector : ConfSection :=
  ⟨"s2", none, none, some "60:10080"⟩

/-- A section with a `match-all` selector. -/
def secMatchAll : ConfSection :=
  ⟨"s3", some "true", none, some "60:10080"⟩

/-- The schema `secPattern` builds. -/
def patternRule : RetSchema :=
  ⟨"s1", .patternKind "^stats", [⟨10, 8640⟩]⟩

/-- An aggregation section with a `pattern` selector. -/
def aggPattern : AggSection :=
  ⟨"a1", none, some "^stats", some "0.5", some "sum"⟩

/-- A malformed aggregation section: neither selector. -/
def aggNoSelector : AggSection :=
  ⟨"a2", none, none, none, none⟩

/-- The schema `aggPattern` builds. -/
def aggPatternRule : AggSchema :=
  ⟨"a1", .patternKind "^stats", (some (1 / 2), some "sum")⟩

/-- A validator that rejects exactly `secPattern`'s archive list, as
`whisper.validateArchiveList` would reject an inconsistent tier list. -/
def demoValidateRejecting (al : List (Nat × Nat)) : Bool :=
  al ≠ [(10, 8640)]

/-- A `.wsp` file holding exactly the hardcoded default retention, with the
stored aggregation values every real whisper file has. -/
def fileAvg : WspFile :=
  ⟨"f.wsp", "m", ⟨some (1 / 2), some "average", [(60, 10080)]⟩⟩

/-- The claim's reading of the two optional flags: present exactly when the
field is set. -/
def aggMethodFlag : Option String → List String
  | some m => ["--aggregationMethod=" ++ m]
  | none => []

/-- The claim's reading of the threshold flag: present exactly when the
field is set. -/
def xffFlag : Option ℚ → List String
  | some v => ["--xFilesFactor=" ++ toString v]
  | none => []

/-- A catch-all aggregation rule with both fields set. -/
def aggAllSum : AggSchema :=
  ⟨"a3", .defaultKind, (some 1, some "sum")⟩

/-! ### Helper lemmas -/

theorem pySplitAux_ne_nil (l : List Char) (sep : Char) : pySplitAux l sep ≠ [] := by
  cases l with
  | nil => simp [pySplitAux]
  | cons c rest =>
    simp only [pySplitAux]
    cases pySplitAux rest sep with
    | nil => simp
    | cons h t => by_cases hc : c = sep <;> simp [hc]

theorem pySplit_ne_nil (s : String) (sep : Char) : pySplit s sep ≠ [] := by
  simp [pySplit, pySplitAux_ne_nil]

theorem parseArchives_ne_nil (parse : String → Option Archive) {l : List String}
    {l' : List Archive} (h : parseArchives parse l = some l') (hl : l ≠ []) :
    l' ≠ [] := by
  cases l with
  | nil => exact absurd rfl hl
  | cons s rest =>
    simp only [parseArchives] at h
    cases hp : parse s with
    | none => rw [hp] at h; cases h
    | some a =>
      rw [hp] at h
      cases hr : parseArchives parse rest with
      | none => rw [hr] at h; cases h
      | some tail => rw [hr] at h; cases h; simp

theorem mkRetSchema_archives {sec : ConfSection} {archives : List Archive}
    {t : RetSchema} (h : mkRetSchema sec archives = some t) : t.archives = archives := by
  unfold mkRetSchema at h
  split at h
  · cases h; rfl
  · split at h
    · cases h; rfl
    · cases h

theorem mkRetSchema_isSome {sec : ConfSection} (archives : List Archive)
    (h : truthy sec.matchAll ∨ truthy sec.pattern) :
    ∃ t, mkRetSchema sec archives = some t := by
  unfold mkRetSchema
  by_cases hm : truthy sec.matchAll
  · exact ⟨_, if_pos hm⟩
  · have hp : truthy sec.pattern = true := by
      rcases h with h | h
      · exact absurd h hm
      · exact h
    exact ⟨⟨sec.name, .patternKind (sec.pattern.getD ""), archives⟩,
      by rw [if_neg hm, if_pos hp]⟩

theorem mkAggSchema_isSome {sec : AggSection} (payload : Option ℚ × Option String)
    (h : truthy sec.matchAll ∨ truthy sec.pattern) :
    ∃ t, mkAggSchema sec payload = some t := by
  unfold mkAggSchema
  by_cases hm : truthy sec.matchAll
  · exact ⟨_, if_pos hm⟩
  · have hp : truthy sec.pattern = true := by
      rcases h with h | h
      · exact absurd h hm
      · exact h
    exact ⟨⟨sec.name, .patternKind (sec.pattern.getD ""), payload⟩,
      by rw [if_neg hm, if_pos hp]⟩

theorem defaultSchema_matches (rs : String → String → Bool) (metric : String) :
    defaultSchema.matches rs metric = true := rfl

theorem loadStorageSchemasAux_ne_nil (parse : String → Option Archive)
    (validate : List (Nat × Nat) → Bool) :
    ∀ (secs : List ConfSection) (acc : List RetSchema) (stale : Option RetSchema)
      (l : List RetSchema),
    loadStorageSchemasAux parse validate secs acc stale = .ok l →
    (∀ s ∈ acc, s.archives ≠ []) →
    (∀ s, stale = some s → s.archives ≠ []) →
    (∀ s ∈ l, s.archives ≠ []) ∧ defaultSchema ∈ l
  | [], acc, stale, l, h, hacc, hstale => by
    simp only [loadStorageSchemasAux] at h
    cases h
    refine ⟨?_, List.mem_append.mpr (Or.inr (by simp))⟩
    intro s hs
    rcases List.mem_append.mp hs with hs | hs
    · exact hacc s hs
    · simp only [List.mem_singleton] at hs
      subst hs
      simp [defaultSchema, defaultArchive]
  | sec :: rest, acc, stale, l, h, hacc, hstale => by
    simp only [loadStorageSchemasAux] at h
    split at h
    · cases h
    next retStr hret =>
      split at h
      · cases h
      next archives hpa =>
        have harch : archives ≠ [] := parseArchives_ne_nil parse hpa (pySplit_ne_nil _ _)
        have hmy : ∀ s, (mkRetSchema sec archives).or stale = some s → s.archives ≠ [] := by
          intro s hs
          cases hmk : mkRetSchema sec archives with
          | some t =>
            rw [hmk] at hs
            have hs' : some t = some s := hs
            cases hs'
            rw [mkRetSchema_archives hmk]
            exact harch
          | none =>
            rw [hmk] at hs
            exact hstale s hs
        split at h
        · split at h
          · cases h
          next s hsome =>
            exact loadStorageSchemasAux_ne_nil parse validate rest (acc ++ [s]) _ l h
              (by
                intro t ht
                rcases List.mem_append.mp ht with ht | ht
                · exact hacc t ht
                · simp only [List.mem_singleton] at ht
                  subst ht
                  exact hmy t hsome)
              hmy
        · exact loadStorageSchemasAux_ne_nil parse validate rest acc _ l h hacc hmy

theorem get_archive_config_ok_of_invariant (rs : String → String → Bool)
    (agg_schemas : List AggSchema) (metric : String) {l : List RetSchema}
    (hne : ∀ s ∈ l, s.archives ≠ []) (hdef : defaultSchema ∈ l) :
    ∃ ac x a, get_archive_config rs l agg_schemas metric = .ok (ac, x, a) ∧ ac ≠ [] := by
  cases hfind : l.find? (fun s => s.matches rs metric) with
  | none =>
    have := List.find?_eq_none.mp hfind defaultSchema hdef
    simp [defaultSchema_matches] at this
  | some s =>
    have hmem : s ∈ l := List.mem_of_find?_eq_some hfind
    have hs : s.archives.map Archive.getTuple ≠ [] := by
      simp only [ne_eq, List.map_eq_nil_iff]
      exact hne s hmem
    cases hagg : agg_schemas.find? (fun t => t.matches rs metric) with
    | none =>
      refine ⟨s.archives.map Archive.getTuple, none, none, ?_, hs⟩
      unfold get_archive_config
      rw [hfind, hagg]
      simp [hs]
    | some t =>
      refine ⟨s.archives.map Archive.getTuple, t.archives.1, t.archives.2, ?_, hs⟩
      unfold get_archive_config
      rw [hfind, hagg]
      simp [hs]

theorem loadStorageSchemasAux_selectors (parse : String → Option Archive)
    (validate : List (Nat × Nat) → Bool) :
    ∀ (secs : List ConfSection) (acc : List RetSchema) (stale : Option RetSchema)
      (l : List RetSchema),
    (∀ sec ∈ secs, truthy sec.matchAll ∨ truthy sec.pattern) →
    loadStorageSchemasAux parse validate secs acc stale = .ok l →
    l = acc ++ (secs.filterMap (fun sec =>
      match sectionArchives parse sec with
      | none => none
      | some archives =>
        if validate (archives.map Archive.getTuple) then mkRetSchema sec archives
        else none)) ++ [defaultSchema]
  | [], acc, stale, l, hsel, h => by
    simp only [loadStorageSchemasAux] at h
    cases h
    simp
  | sec :: rest, acc, stale, l, hsel, h => by
    simp only [loadStorageSchemasAux] at h
    split at h
    · cases h
    next retStr hret =>
      split at h
      · cases h
      next archives hpa =>
        have hsa : sectionArchives parse sec = some archives := by
          simp [sectionArchives, hret, hpa]
        obtain ⟨t, hmk⟩ := mkRetSchema_isSome archives (hsel sec (by simp))
        have hrest : ∀ s ∈ rest, truthy s.matchAll ∨ truthy s.pattern :=
          fun s hs => hsel s (by simp [hs])
        split at h
        next hval =>
          rw [hmk] at h
          have h' : loadStorageSchemasAux parse validate rest (acc ++ [t])
              ((some t).or stale) = .ok l := h
          have hrec := loadStorageSchemasAux_selectors parse validate rest (acc ++ [t]) _ l hrest h'
          rw [hrec]
          simp [List.filterMap_cons, hsa, hval, hmk]
        next hval =>
          have hrec := loadStorageSchemasAux_selectors parse validate rest acc _ l hrest h
          rw [hrec]
          simp [List.filterMap_cons, hsa, hval]

theorem loadAggregationSchemasAux_selectors (pf : String → Option ℚ) (ams : List String) :
    ∀ (secs : List AggSection) (acc : List AggSchema) (stale : Option AggSchema)
      (l : List AggSchema),
    (∀ sec ∈ secs, truthy sec.matchAll ∨ truthy sec.pattern) →
    loadAggregationSchemasAux pf ams secs acc stale = .ok l →
    l = acc ++ (secs.filterMap (fun sec =>
      match parseAggOptions pf ams sec.xfilesfactor sec.aggregationmethod with
      | none => none
      | some payload => mkAggSchema sec payload)) ++ [defaultAggregation]
  | [], acc, stale, l, hsel, h => by
    simp only [loadAggregationSchemasAux] at h
    cases h
    simp
  | sec :: rest, acc, stale, l, hsel, h => by
    simp only [loadAggregationSchemasAux] at h
    split at h
    next hpo =>
      have hrec := loadAggregationSchemasAux_selectors pf ams rest acc _ l
        (fun s hs => hsel s (by simp [hs])) h
      rw [hrec]
      simp [List.filterMap_cons, hpo]
    next payload hpo =>
      obtain ⟨t, hmk⟩ := mkAggSchema_isSome payload (hsel sec (by simp))
      rw [hmk] at h
      have h' : loadAggregationSchemasAux pf ams rest (acc ++ [t])
          ((some t).or stale) = .ok l := h
      have hrec := loadAggregationSchemasAux_selectors pf ams rest (acc ++ [t]) _ l
        (fun s hs => hsel s (by simp [hs])) h'
      rw [hrec]
      simp [List.filterMap_cons, hpo, hmk]

/-- C1: `get_archive_config` scans the ordered retention rule list and
returns the archive tuples of the first rule whose matcher matches (rule `A`
here, with every rule before it failing to match), never the payload of any
later rule; independently it scans the ordered aggregation rule list and
returns the `(consistency threshold, aggregation method)` payload of the
first matching rule there (`B2`), so a metric may take its retention from
one rule and its aggregation settings from a different rule. -/
theorem c1_first_match_wins (rs : String → String → Bool) (metric : String)
    (l1 l2 : List RetSchema) (A : RetSchema) (a1 a2 : List AggSchema) (B2 : AggSchema)
    (hA : A.matches rs metric = true)
    (h1 : ∀ s ∈ l1, s.matches rs metric = false)
    (hB : B2.matches rs metric = true)
    (h2 : ∀ s ∈ a1, s.matches rs metric = false)
    (hne : A.archives ≠ []) :
    get_archive_config rs (l1 ++ A :: l2) (a1 ++ B2 :: a2) metric
      = .ok (A.archives.map Archive.getTuple, B2.archives.1, B2.archives.2) := by
  have hf1 : (l1 ++ A :: l2).find? (fun s => s.matches rs metric) = some A := by
    rw [List.find?_append]
    rw [List.find?_eq_none.mpr (by intro x hx; simp [h1 x hx])]
    simp [List.find?_cons_of_pos, hA]
  have hf2 : (a1 ++ B2 :: a2).find? (fun s => s.matches rs metric) = some B2 := by
    rw [List.find?_append]
    rw [List.find?_eq_none.mpr (by intro x hx; simp [h2 x hx])]
    simp [List.find?_cons_of_pos, hB]
  have hmapne : A.archives.map Archive.getTuple ≠ [] := by
    simpa using hne
  unfold get_archive_config
  rw [hf1, hf2]
  simp [hmapne]

/-- Witness for C1 at a concrete input: the first retention rule and the
first aggregation rule win. -/
theorem c1_witness :
    get_archive_config (fun _ _ => true) ([] ++ patternRule :: [defaultSchema])
      ([] ++ aggPatternRule :: [defaultAggregation]) "stats.foo"
      = .ok ([(10, 8640)], some (1 / 2), some "sum") :=
  c1_first_match_wins (fun _ _ => true) "stats.foo" [] [defaultSchema] patternRule
    [] [defaultAggregation] aggPatternRule rfl (by intro s hs; cases hs) rfl
    (by intro s hs; cases hs) (by decide)

/-- C4: for every metric name, resolution over any successfully loaded
retention rule list returns a non-empty archive list and never reaches the
fatal "no storage schema matched" branch, because `loadStorageSchemas`
appends the catch-all `defaultSchema` (one week of one-minute resolution,
`[(60, 10080)]`) and every loaded rule's archive list is non-empty. -/
theorem c4_resolution_total (parse : String → Option Archive)
    (validate : List (Nat × Nat) → Bool) (sections : List ConfSection)
    (rs : String → String → Bool) (agg_schemas : List AggSchema) (metric : String)
    (l : List RetSchema) (h : loadStorageSchemas parse validate sections = .ok l) :
    ∃ ac x a, get_archive_config rs l agg_schemas metric = .ok (ac, x, a) ∧ ac ≠ [] := by
  obtain ⟨hne, hdef⟩ := loadStorageSchemasAux_ne_nil parse validate sections [] none l h
    (by intro s hs; cases hs) (by intro s hs; cases hs)
  exact get_archive_config_ok_of_invariant rs agg_schemas metric hne hdef

/-- Witness for C4: the empty config loads to `[defaultSchema]`, and
resolution of an arbitrary metric succeeds with a non-empty archive list. -/
theorem c4_witness :
    ∃ ac x a, get_archive_config (fun _ _ => false) [defaultSchema] [defaultAggregation] "m"
      = .ok (ac, x, a) ∧ ac ≠ [] :=
  c4_resolution_total (fun _ => none) (fun _ => true) [] (fun _ _ => false)
    [defaultAggregation] "m" [defaultSchema] rfl

/-- C2 (refuting evaluation): the claim says archive lists of different
lengths always yield drift, but `diff_file_conf` compares archives through
`zip`, which truncates to the shorter list: an observed file with archives
`[(60, 10080)]` against a prescribed list `[(60, 10080), (300, 26280)]`,
with equal aggregation fields, falls off the end and returns the falsy
`None`, so no drift is reported. -/
theorem c2_length_mismatch_not_detected :
    policyDrift ⟨some (1 / 2), some "average", [(60, 10080)]⟩
      [(60, 10080), (300, 26280)] (some (1 / 2)) (some "average") = none ∧
    truthyOpt (policyDrift ⟨some (1 / 2), some "average", [(60, 10080)]⟩
      [(60, 10080), (300, 26280)] (some (1 / 2)) (some "average")) = false := by
  constructor <;> simp [policyDrift, truthyOpt]

/-- C3 (refuting evaluation): the claim says no drift is reported exactly
when the observed policy is field-for-field identical to the prescribed one,
but an observed file with the extra archive `(300, 26280)` — not identical
to the prescribed single-archive list — still gets the falsy `None` from
`diff_file_conf`, because `zip` drops the unmatched tail. -/
theorem c3_no_drift_on_nonidentical :
    policyDrift ⟨some (1 / 2), some "average", [(60, 10080), (300, 26280)]⟩
      [(60, 10080)] (some (1 / 2)) (some "average") = none ∧
    ((⟨some (1 / 2), some "average", [(60, 10080), (300, 26280)]⟩ : WhisperInfo).archives
      ≠ [(60, 10080)]) := by
  constructor
  · simp [policyDrift]
  · simp

/-- C5 (refuting evaluation): with the default rules only (prescribed
aggregation method and threshold unset, as when `storage-aggregation.conf`
is absent) and a file that already stores the default retention, every
reconciliation pass maps the file state to itself while issuing one rewrite
invocation: `whisper.info` reports the stored `xFilesFactor`/method, the
comparison against the unset (`None`) prescription reports drift, and the
rewrite is invoked without either flag so the stored values survive.  The
second pass therefore issues one rewrite again, not zero. -/
theorem c5_second_pass_rewrites :
    reconcilePass (fun _ _ => false) [defaultSchema] [defaultAggregation]
      "whisper-resize.py" [fileAvg] = .ok (1, [fileAvg]) := rfl

/-- C6 (refuting evaluation): a section with neither `match-all` nor
`pattern` is not skipped.  Python's loop-carried `mySchema` still holds the
previous section's schema, so the loader appends that schema a second time
(first and third conjuncts, for the retention and aggregation loaders); when
the malformed section comes first there is no previous schema and the load
dies with a `NameError` (second conjunct). -/
theorem c6_selectorless_section_duplicates_previous :
    loadStorageSchemas demoParse (fun _ => true) [secPattern, secNoSelector]
      = .ok [patternRule, patternRule, defaultSchema] ∧
    loadStorageSchemas demoParse (fun _ => true) [secNoSelector]
      = .error "NameError: name mySchema is not defined" ∧
    loadAggregationSchemas demoFloat demoMethods [aggPattern, aggNoSelector]
      = .ok [aggPatternRule, aggPatternRule, defaultAggregation] := by
  refine ⟨rfl, rfl, ?_⟩
  have hx : (0 ≤ (1 / 2 : ℚ) ∧ (1 / 2 : ℚ) ≤ 1) := by norm_num
  simp [loadAggregationSchemas, loadAggregationSchemasAux, parseAggOptions, demoFloat,
    demoMethods, aggPattern, aggNoSelector, mkAggSchema, truthy, aggPatternRule,
    defaultAggregation, hx]
  norm_num


/-- C7 counterexample: a retention section whose archive list fails
validation is not merely logged and skipped — its schema (invalid archives
included) re-enters the returned list when a later selector-less section
appends the stale `mySchema`.  So the failed rule is loaded, contradicting
"skips that section only". -/
theorem c7_counterexample_failed_rule_still_loaded :
    loadStorageSchemas demoParse demoValidateRejecting [secPattern, secNoSelector]
      = .ok [patternRule, defaultSchema] ∧ patternRule ∈ [patternRule, defaultSchema] :=
  ⟨rfl, by simp⟩

/-- C7 (amended): provided every section carries a selector (`match-all`
or `pattern`), rule-level validation failures are non-fatal and localized:
a section failing validation (retention archive-list validation, or an
aggregation threshold outside `[0,1]` / unparseable, or a method outside
the supported set) contributes nothing, every other valid section's rule is
loaded in order, and the built-in default closes each list. -/
theorem c7_failures_localized_with_selectors (parse : String → Option Archive)
    (validate : List (Nat × Nat) → Bool) (sections : List ConfSection)
    (pf : String → Option ℚ) (ams : List String) (aggSections : List AggSection)
    (l : List RetSchema) (la : List AggSchema)
    (hsel : ∀ sec ∈ sections, truthy sec.matchAll ∨ truthy sec.pattern)
    (hsel2 : ∀ sec ∈ aggSections, truthy sec.matchAll ∨ truthy sec.pattern)
    (h : loadStorageSchemas parse validate sections = .ok l)
    (h2 : loadAggregationSchemas pf ams aggSections = .ok la) :
    l = expectedRetSchemas parse validate sections ∧
    la = expectedAggSchemas pf ams aggSections := by
  constructor
  · have hc := loadStorageSchemasAux_selectors parse validate sections [] none l hsel h
    simpa [expectedRetSchemas] using hc
  · have hc := loadAggregationSchemasAux_selectors pf ams aggSections [] none la hsel2 h2
    simpa [expectedAggSchemas] using hc

/-- Witness for C7 at a concrete config: the failing retention section is
dropped, the valid one loads, and the aggregation section loads. -/
theorem c7_witness :
    ([⟨"s3", .defaultKind, [⟨60, 10080⟩]⟩, defaultSchema] : List RetSchema)
      = expectedRetSchemas demoParse demoValidateRejecting [secPattern, secMatchAll] ∧
    ([aggPatternRule, defaultAggregation] : List AggSchema)
      = expectedAggSchemas demoFloat demoMethods [aggPattern] :=
  c7_failures_localized_with_selectors demoParse demoValidateRejecting
    [secPattern, secMatchAll] demoFloat demoMethods [aggPattern] _ _
    (by decide) (by decide) rfl
    (by
      have hx : (0 ≤ (1 / 2 : ℚ) ∧ (1 / 2 : ℚ) ≤ 1) := by norm_num
      simp [loadAggregationSchemas, loadAggregationSchemasAux, parseAggOptions, demoFloat,
        demoMethods, aggPattern, mkAggSchema, truthy, aggPatternRule, defaultAggregation, hx]
      norm_num)

/-- C8: when drift is detected, the rewrite invocation is exactly the
tool path, the file path, each prescribed archive as
`"<intervalSeconds>:<retainedPoints>"` in list order, `--nobackup`, the
`--aggregationMethod` flag exactly when the prescribed method is set (all
loadable methods are non-empty strings, hypothesis `hm`), and the
`--xFilesFactor` flag exactly when the prescribed threshold is set; when no
drift is detected, no command is issued. -/
theorem c8_command_exact (rs : String → String → Bool) (schemas : List RetSchema)
    (agg_schemas : List AggSchema) (tool fp metric : String) (info : WhisperInfo)
    (ac : List (Nat × Nat)) (x : Option ℚ) (a : Option String)
    (hok : get_archive_config rs schemas agg_schemas metric = .ok (ac, x, a))
    (hm : ∀ m, a = some m → m ≠ "") :
    (policyDrift info ac x a = none →
      reconcileFile rs schemas agg_schemas tool fp metric info = .ok (none, info)) ∧
    (policyDrift info ac x a = some true →
      reconcileFile rs schemas agg_schemas tool fp metric info
        = .ok (some ([tool, fp]
            ++ ac.map (fun p => toString p.1 ++ ":" ++ toString p.2)
            ++ ["--nobackup"] ++ aggMethodFlag a ++ xffFlag x),
          applyResize info ac x a)) := by
  constructor
  · intro hd
    simp [reconcileFile, diff_file_conf, hok, hd, truthyOpt]
    rfl
  · intro hd
    have hcmd : reconcileFile rs schemas agg_schemas tool fp metric info
        = .ok (some (buildResizeCommand tool fp ac x a), applyResize info ac x a) := by
      simp [reconcileFile, diff_file_conf, hok, hd, truthyOpt]
      rfl
    have hbc : buildResizeCommand tool fp ac x a
        = [tool, fp] ++ ac.map (fun p => toString p.1 ++ ":" ++ toString p.2)
          ++ ["--nobackup"] ++ aggMethodFlag a ++ xffFlag x := by
      clear hcmd hd hok
      revert hm
      cases a with
      | none => intro hm; rfl
      | some m =>
        intro hm
        simp [buildResizeCommand, aggMethodFlag, xffFlag, hm m rfl]
    rw [hcmd, hbc]

/-- Witness for C8 at a concrete resolved policy with both aggregation
fields set. -/
theorem c8_witness :
    (policyDrift ⟨some 1, some "average", [(10, 8640)]⟩ [(10, 8640)] (some 1) (some "sum") = none →
      reconcileFile (fun _ _ => true) [patternRule] [aggAllSum] "wr" "f.wsp" "stats.foo"
        ⟨some 1, some "average", [(10, 8640)]⟩ = .ok (none, ⟨some 1, some "average", [(10, 8640)]⟩)) ∧
    (policyDrift ⟨some 1, some "average", [(10, 8640)]⟩ [(10, 8640)] (some 1) (some "sum") = some true →
      reconcileFile (fun _ _ => true) [patternRule] [aggAllSum] "wr" "f.wsp" "stats.foo"
        ⟨some 1, some "average", [(10, 8640)]⟩
        = .ok (some (["wr", "f.wsp"]
            ++ [(10, 8640)].map (fun p => toString p.1 ++ ":" ++ toString p.2)
            ++ ["--nobackup"] ++ aggMethodFlag (some "sum") ++ xffFlag (some 1)),
          applyResize ⟨some 1, some "average", [(10, 8640)]⟩ [(10, 8640)] (some 1) (some "sum"))) :=
  c8_command_exact (fun _ _ => true) [patternRule] [aggAllSum] "wr" "f.wsp" "stats.foo"
    ⟨some 1, some "average", [(10, 8640)]⟩ [(10, 8640)] (some 1) (some "sum") rfl
    (by intro m hm; cases hm; decide)

/-- C9 counterexample: the claim says that whenever the backing file does
not exist the member set is empty and nothing matches, but if the file
existed at construction (here with member "m") and is later deleted,
`ListSchema.test` keeps the previously loaded members and still matches. -/
theorem c9_counterexample_stale_members_after_delete :
    (ListSchema.test (ListSchema.init (some (5, ["m"]))) none "m").1 = true := rfl

/-- C9 (amended): `ListSchema.test` re-reads the backing file exactly when
the file exists and its modification time strictly exceeds the cached one;
an immediately repeated test against an unchanged filesystem never re-reads;
and when the backing file did not exist at construction, the member set is
empty and, while the file stays absent, no metric matches. -/
theorem c9_list_cache_behaviour (st : ListState) (fs : ListFile) (metric metric2 : String) :
    ((ListSchema.test st fs metric).2.2 = true ↔
      ∃ t ms, fs = some (t, ms) ∧ st.mtime < t) ∧
    (ListSchema.test (ListSchema.test st fs metric).2.1 fs metric2).2.2 = false ∧
    ListSchema.init none = ⟨0, []⟩ ∧
    (ListSchema.test (ListSchema.init none) none metric).1 = false := by
  refine ⟨?_, ?_, rfl, by simp [ListSchema.test, ListSchema.init]⟩
  · cases fs with
    | none => simp [ListSchema.test]
    | some p =>
      obtain ⟨t, ms⟩ := p
      by_cases h : st.mtime < t
      · simp [ListSchema.test, h]
      · simp [ListSchema.test, h]
  · cases fs with
    | none => simp [ListSchema.test]
    | some p =>
      obtain ⟨t, ms⟩ := p
      by_cases h : st.mtime < t
      · simp [ListSchema.test, h]
      · simp [ListSchema.test, h]

/-- C10: `diff_file_conf`'s comparison returns the boolean `True` exactly
when some compared field differs and otherwise falls off the end of the
function returning `None` — never the boolean `False` — so the walk's
`if diff_file_conf(...)` relies on truthiness. -/
theorem c10_drift_never_false (info : WhisperInfo) (ac : List (Nat × Nat))
    (x : Option ℚ) (a : Option String) :
    policyDrift info ac x a ≠ some false ∧
    (policyDrift info ac x a = none ↔
      (info.xFilesFactor = x ∧ info.aggregationMethod = a ∧
        ∀ p ∈ info.archives.zip ac, p.1.1 = p.2.1 ∧ p.1.2 = p.2.2)) := by
  unfold policyDrift
  by_cases h1 : info.xFilesFactor ≠ x ∨ info.aggregationMethod ≠ a
  · rw [if_pos h1]
    refine ⟨by simp, ?_, ?_⟩
    · intro h; cases h
    · rintro ⟨hx, ha, _⟩
      rcases h1 with h1 | h1
      · exact absurd hx h1
      · exact absurd ha h1
  · rw [if_neg h1]
    push_neg at h1
    obtain ⟨hx, ha⟩ := h1
    by_cases h2 : (info.archives.zip ac).any
        (fun p => decide (p.1.1 ≠ p.2.1) || decide (p.1.2 ≠ p.2.2)) = true
    · rw [if_pos h2]
      refine ⟨by simp, ?_, ?_⟩
      · intro h; cases h
      · rintro ⟨_, _, hall⟩
        rw [List.any_eq_true] at h2
        obtain ⟨p, hp, hdiff⟩ := h2
        have hpe := hall p hp
        simp only [Bool.or_eq_true, decide_eq_true_eq] at hdiff
        rcases hdiff with hd | hd
        · exact (hd hpe.1).elim
        · exact (hd hpe.2).elim
    · rw [if_neg h2]
      have hall : ∀ p ∈ info.archives.zip ac, p.1.1 = p.2.1 ∧ p.1.2 = p.2.2 := by
        intro p hp
        by_contra hc
        apply h2
        rw [List.any_eq_true]
        refine ⟨p, hp, ?_⟩
        by_cases hA : p.1.1 = p.2.1
        · have : p.1.2 ≠ p.2.2 := by
            intro hB
            exact hc (And.intro hA hB)
          simp [this]
        · simp [hA]
      exact ⟨by simp, fun _ => ⟨hx, ha, hall⟩, fun _ => rfl⟩
